import Mathlib

/-!
Shallow embedding of the ArcynForge backend (`src/main.py`, `src/schemas.py`).

The HTTP handlers of `main.py` are translated into pure Lean functions over an
explicit store state.  JSON values are modelled by `JsonVal`; the arbitrary
(`Dict[str, Any]`) payload maps of the schemas are modelled with one level of
nesting (`Prim` leaves), which is all the claims inspect.  The document store
adapter (`database.py`, whose source is not part of this listing) is modelled
from the spec, and BSON ObjectId parsing/printing is embedded concretely as
24-character hexadecimal strings, which is the format `bson.ObjectId` accepts
from a `str` argument.
-/

/-- Primitive JSON leaf values (strings, integers, booleans, null). -/
inductive Prim where
  | str (s : String)
  | num (n : Int)
  | bool (b : Bool)
  | null
deriving DecidableEq, Repr

/-- JSON-like values stored in documents.  `oid` is the store's native
identifier value (MongoDB ObjectId), carried as a natural number below
`16 ^ 24`.  Arrays and objects carry primitive leaves: no claim inspects
deeper nesting. -/
inductive JsonVal where
  | str (s : String)
  | null
  | oid (n : Nat)
  | arr (xs : List Prim)
  | obj (kvs : List (String × Prim))
deriving DecidableEq, Repr

/-- A document: an ordered association list of fields, as a Python dict with
string keys. -/
abbrev Doc := List (String × JsonVal)

/-- Lookup of a field in a document (first occurrence, as dict access). -/
def lookupField (d : Doc) (k : String) : Option JsonVal :=
  match d with
  | [] => none
  | (k2, v) :: rest => if k2 = k then some v else lookupField rest k

/-- Removal of the first occurrence of a field, as `dict.pop` on a present
key. -/
def eraseField (d : Doc) (k : String) : Doc :=
  match d with
  | [] => []
  | (k2, v) :: rest => if k2 = k then rest else (k2, v) :: eraseField rest k

/-- In-place update of a field, adding it at the end when absent: the
behaviour of a MongoDB `$set` on a single field. -/
def setField (d : Doc) (k : String) (v : JsonVal) : Doc :=
  match d with
  | [] => [(k, v)]
  | (k2, v2) :: rest => if k2 = k then (k2, v) :: rest else (k2, v2) :: setField rest k v

theorem lookupField_append (xs ys : Doc) (k : String) :
    lookupField (xs ++ ys) k =
      match lookupField xs k with
      | some v => some v
      | none => lookupField ys k := by
  induction xs with
  | nil => simp [lookupField]
  | cons hd tl ih =>
    obtain ⟨k2, v⟩ := hd
    by_cases h : k2 = k <;> simp [lookupField, h, ih]

theorem lookupField_eraseField_ne (d : Doc) (k k2 : String) (h : k ≠ k2) :
    lookupField (eraseField d k) k2 = lookupField d k2 := by
  induction d with
  | nil => simp [eraseField]
  | cons hd tl ih =>
    obtain ⟨k3, v⟩ := hd
    by_cases h3 : k3 = k
    · simp [eraseField, lookupField, h3, h]
    · by_cases h4 : k3 = k2 <;>
        simp [eraseField, lookupField, h3, h4, Ne.symm h, ih]

theorem lookupField_setField_ne (d : Doc) (k k2 : String) (v : JsonVal) (h : k ≠ k2) :
    lookupField (setField d k v) k2 = lookupField d k2 := by
  induction d with
  | nil => simp [setField, lookupField, h]
  | cons hd tl ih =>
    obtain ⟨k3, v3⟩ := hd
    by_cases h3 : k3 = k
    · simp [setField, lookupField, h3, h]
    · by_cases h4 : k3 = k2 <;>
        simp [setField, lookupField, h3, h4, Ne.symm h, ih]

/-! ObjectId strings.  `bson.ObjectId(s)` accepts exactly the 24-character
hexadecimal strings; `str(object_id)` renders the identifier back in lowercase
hexadecimal. -/

/-- Lowercase hexadecimal digit character of a value below 16. -/
def hexChar (n : Nat) : Char :=
  if n < 10 then Char.ofNat (48 + n) else Char.ofNat (87 + n)

/-- Value of a hexadecimal digit character, accepting both cases; `none` on a
non-hexadecimal character. -/
def hexVal (c : Char) : Option Nat :=
  if '0' ≤ c ∧ c ≤ '9' then some (c.toNat - 48)
  else if 'a' ≤ c ∧ c ≤ 'f' then some (c.toNat - 87)
  else if 'A' ≤ c ∧ c ≤ 'F' then some (c.toNat - 55)
  else none

/-- Little-endian list of `w` hexadecimal digit characters of `n`. -/
def toHexRevList : Nat → Nat → List Char
  | 0, _ => []
  | w + 1, n => hexChar (n % 16) :: toHexRevList w (n / 16)

/-- Parse a little-endian list of hexadecimal digit characters. -/
def parseHexRevList : List Char → Option Nat
  | [] => some 0
  | c :: cs =>
    match hexVal c, parseHexRevList cs with
    | some d, some rest => some (d + 16 * rest)
    | _, _ => none

/-- Rendering of a store identifier as its public 24-character lowercase
hexadecimal string, as `str(ObjectId)`. -/
def oidToString (n : Nat) : String := ⟨(toHexRevList 24 n).reverse⟩

/-- Parsing of a public identifier string, as `ObjectId(id_str)`: defined
exactly on 24-character hexadecimal strings. -/
def oidOfString (s : String) : Option Nat :=
  if s.data.length = 24 then parseHexRevList s.data.reverse else none

theorem hexVal_hexChar : ∀ d < 16, hexVal (hexChar d) = some d := by decide

theorem toHexRevList_length (w n : Nat) : (toHexRevList w n).length = w := by
  induction w generalizing n with
  | zero => simp [toHexRevList]
  | succ w ih => simp [toHexRevList, ih]

theorem parseHexRevList_toHexRevList (w n : Nat) :
    parseHexRevList (toHexRevList w n) = some (n % 16 ^ w) := by
  induction w generalizing n with
  | zero => simp [toHexRevList, parseHexRevList, Nat.mod_one]
  | succ w ih =>
    rw [toHexRevList, parseHexRevList,
      hexVal_hexChar (n % 16) (Nat.mod_lt n (by norm_num)), ih]
    have h : (16 : Nat) ^ (w + 1) = 16 * 16 ^ w := by ring
    rw [h, Nat.mod_mul]

theorem oidOfString_oidToString (n : Nat) (h : n < 16 ^ 24) :
    oidOfString (oidToString n) = some n := by
  have hdata : (oidToString n).data = (toHexRevList 24 n).reverse := rfl
  rw [oidOfString, hdata]
  rw [if_pos (by simp [toHexRevList_length])]
  rw [List.reverse_reverse, parseHexRevList_toHexRevList, Nat.mod_eq_of_lt h]

theorem oidToString_ne_empty (n : Nat) : oidToString n ≠ "" := by
  intro h
  have hlen : (oidToString n).data.length = 24 := by
    simp [oidToString, toHexRevList_length]
  rw [h] at hlen
  simp at hlen

/-! Schemas (`src/schemas.py`).  Pydantic validation is embedded by a payload
type (the JSON request body, `none` meaning an absent optional field) and a
validated record type on which the declared field defaults have been applied.
Required fields (`Project.name`, `TuningJob.objective`) are present by
construction of a payload: a body missing them is rejected by the framework
before the handler runs. -/

/-- Request body for `Project`: optional fields may be absent. -/
structure ProjectPayload where
  name : String
  description : Option String
  language : Option String
  framework : Option String
  tags : Option (List String)
  settings : Option (List (String × Prim))
deriving DecidableEq, Repr

/-- Validated `Project` record, as produced by pydantic: defaults applied. -/
structure Project where
  name : String
  description : Option String
  language : String
  framework : Option String
  tags : List String
  settings : List (String × Prim)
deriving DecidableEq, Repr

/-- Pydantic validation of a `Project` body: `language` defaults to
`"javascript"`, `tags` and `settings` default to empty. -/
def validateProject (p : ProjectPayload) : Project :=
  Project.mk p.name p.description (p.language.getD "javascript") p.framework
    (p.tags.getD []) (p.settings.getD [])

/-- JSON value of an optional string field: absent optionals are stored as
null. -/
def optStrVal : Option String → JsonVal
  | none => JsonVal.null
  | some s => JsonVal.str s

/-- Serialization of a validated `Project` to a store document
(`model_dump`), in declared field order. -/
def projectToDoc (p : Project) : Doc :=
  [("name", JsonVal.str p.name),
   ("description", optStrVal p.description),
   ("language", JsonVal.str p.language),
   ("framework", optStrVal p.framework),
   ("tags", JsonVal.arr (p.tags.map Prim.str)),
   ("settings", JsonVal.obj p.settings)]

/-- Request body for `TuningJob`. -/
structure TuningJobPayload where
  project_id : Option String
  model : Option String
  objective : String
  dataset : Option String
  status : Option String
  params : Option (List (String × Prim))
deriving DecidableEq, Repr

/-- Validated `TuningJob` record: `model` defaults to `"arcyn-prime"`,
`status` to `"queued"`, `params` to empty. -/
structure TuningJob where
  project_id : Option String
  model : String
  objective : String
  dataset : Option String
  status : String
  params : List (String × Prim)
deriving DecidableEq, Repr

def validateTuningJob (j : TuningJobPayload) : TuningJob :=
  TuningJob.mk j.project_id (j.model.getD "arcyn-prime") j.objective j.dataset
    (j.status.getD "queued") (j.params.getD [])

def tuningJobToDoc (j : TuningJob) : Doc :=
  [("project_id", optStrVal j.project_id),
   ("model", JsonVal.str j.model),
   ("objective", JsonVal.str j.objective),
   ("dataset", optStrVal j.dataset),
   ("status", JsonVal.str j.status),
   ("params", JsonVal.obj j.params)]

/-! The document store.  The adapter module `database.py` is not part of the
given listing; its primitives are modelled from the spec (section 4.1). -/

/-- One collection of the store: documents in insertion order plus the next
identifier the store will assign.  Documents carry their identifier in their
`_id` field. -/
structure Store where
  docs : List Doc
  nextId : Nat
deriving DecidableEq, Repr

/-- Whether a document's `_id` field holds the identifier `i`. -/
def hasOid (d : Doc) (i : Nat) : Bool :=
  lookupField d "_id" == some (JsonVal.oid i)

/-- Modelled from the spec: the Document Store Adapter's
`insert(collection_name, record) -> identifier` (database.py's
`create_document`, whose source is missing).  The store assigns a fresh
opaque identifier, stores the record with it in its `_id` field, and returns
the identifier as a string. -/
def Store.insertDoc (s : Store) (d : Doc) : String × Store :=
  (oidToString s.nextId,
   Store.mk (s.docs ++ [("_id", JsonVal.oid s.nextId) :: d]) (s.nextId + 1))

/-- Whether a document satisfies an exact-match conjunction filter over
top-level fields. -/
def matchesFilter (filt : Doc) (d : Doc) : Bool :=
  filt.all fun kv => lookupField d kv.1 == some kv.2

/-- Modelled from the spec: the adapter's
`find(collection_name, filter, limit) -> sequence of records` (database.py's
`get_documents`, whose source is missing).  `filter` is an exact-match
conjunction over top-level fields; `limit` is clamped to a maximum of 200 and
defaults to 50 when non-positive; records come back in insertion order. -/
def Store.findDocs (s : Store) (filt : Doc) (limit : Int) : List Doc :=
  (s.docs.filter (matchesFilter filt)).take
    (min (if limit ≤ 0 then 50 else limit) 200).toNat

/-- MongoDB `find_one` on an `_id` equality filter: the first document whose
`_id` equals the given identifier. -/
def Store.findOne (s : Store) (i : Nat) : Option Doc :=
  s.docs.find? fun d => hasOid d i

/-- MongoDB `update_one` with an `_id` equality filter and a single-field
`$set`, on a list of documents: updates the first match and reports the
matched count (0 or 1). -/
def updateFirst (docs : List Doc) (i : Nat) (k : String) (v : JsonVal) :
    List Doc × Nat :=
  match docs with
  | [] => ([], 0)
  | d :: rest =>
    if hasOid d i then (setField d k v :: rest, 1)
    else
      let r := updateFirst rest i k v
      (d :: r.1, r.2)

def Store.updateOne (s : Store) (i : Nat) (k : String) (v : JsonVal) :
    Store × Nat :=
  let r := updateFirst s.docs i k v
  (Store.mk r.1 s.nextId, r.2)

/-- The process-wide store handle: two collections, `"project"` and
`"tuningjob"`.  The handle being absent (`db is None`) is modelled by
`Option Database`. -/
structure Database where
  project : Store
  tuningjob : Store
deriving DecidableEq, Repr

/-- Well-formedness of a collection: the next identifier is inside the
24-hex-digit identifier space and strictly above every identifier already
stored.  Every store reachable from the empty one satisfies this as long as
fewer than `16 ^ 24` records are created. -/
def Store.WF (s : Store) : Prop :=
  s.nextId < 16 ^ 24 ∧
    ∀ d ∈ s.docs, ∀ i : Nat,
      lookupField d "_id" = some (JsonVal.oid i) → i < s.nextId

/-! HTTP handlers (`src/main.py`).  A handler outcome is `ok` with a JSON
body, `fail` with an HTTP status code and detail (an `HTTPException`), or
`crash` (an unhandled Python exception, surfacing as a 500).  Handlers that
mutate the store also return the store state after the call. -/

/-- Outcome of one handler call. -/
inductive HResp (α : Type) where
  | ok (body : α)
  | fail (status : Nat) (detail : String)
  | crash
deriving DecidableEq, Repr

/-- HTTP status code of an outcome. -/
def respStatus {α : Type} : HResp α → Nat
  | HResp.ok _ => 200
  | HResp.fail c _ => c
  | HResp.crash => 500

/-- Number of records the list handlers pass to the store query:
FastAPI substitutes the declared default 50 for an absent `limit` query
parameter, and the handler computes `min(limit or 50, 200)` — Python's `or`
replaces a zero (falsy) limit by 50 but keeps every other integer. -/
def effectiveLimit (limit : Option Int) : Int :=
  min (if limit.getD 50 = 0 then 50 else limit.getD 50) 200

/-- Translation of `_oid`: parse the path identifier, turning a parse failure
into the 400 `HTTPException` raised there. -/
def parseOidOr400 (id_str : String) : Except (Nat × String) Nat :=
  match oidOfString id_str with
  | some i => Except.ok i
  | none => Except.error (400, "Invalid ID format")

/-- Handler of `GET /`. -/
def read_root : Doc := [("message", JsonVal.str "ArcynForge Backend Running")]

/-- Handler of `GET /api/hello`. -/
def hello : Doc :=
  [("message", JsonVal.str "Hello from ArcynForge backend API")]

/-- Handler of `GET /schema`: the two JSON schema documents are opaque
values here; only the shape of the response matters to the claims. -/
def get_schema : Doc :=
  [("models", JsonVal.obj
    [("project", Prim.str "Project.model_json_schema"),
     ("tuningjob", Prim.str "TuningJob.model_json_schema")])]

/-- Handler of `GET /test`.  `dbUrlSet` stands for the `DATABASE_URL`
environment variable being set, `collectionsResult` for the outcome of
`db.list_collection_names()` (the one store call that may raise here); our
`Database` model carries no `name` attribute, so the `hasattr` branch yields
the `"✅ Connected"` fallback.  The handler never raises: every branch
returns a response document. -/
def test_database (db : Option Database) (dbUrlSet : Bool)
    (collectionsResult : Except String (List String)) : Doc :=
  let response : Doc :=
    [("backend", JsonVal.str "✅ Running"),
     ("database", JsonVal.str "❌ Not Available"),
     ("database_url", JsonVal.null),
     ("database_name", JsonVal.null),
     ("connection_status", JsonVal.str "Not Connected"),
     ("collections", JsonVal.arr [])]
  match db with
  | some _ =>
    let r1 := setField response "database" (JsonVal.str "✅ Available")
    let r2 := setField r1 "database_url"
      (JsonVal.str (if dbUrlSet then "✅ Set" else "❌ Not Set"))
    let r3 := setField r2 "database_name" (JsonVal.str "✅ Connected")
    let r4 := setField r3 "connection_status" (JsonVal.str "Connected")
    match collectionsResult with
    | Except.ok collections =>
      let r5 := setField r4 "collections"
        (JsonVal.arr ((collections.take 10).map Prim.str))
      setField r5 "database" (JsonVal.str "✅ Connected & Working")
    | Except.error e =>
      setField r4 "database"
        (JsonVal.str ("⚠️  Connected but Error: " ++ e.take 80))
  | none =>
    setField response "database" (JsonVal.str "⚠️  Available but not initialized")

/-- Handler of `GET /api/projects`: 503 without a store handle, then a
filterless store query whose limit is `min(limit or 50, 200)`, and the `_id`
of each returned document renamed to a public string `id`. -/
def renameIdIfPresent (d : Doc) : Doc :=
  match lookupField d "_id" with
  | some (JsonVal.oid n) =>
    eraseField d "_id" ++ [("id", JsonVal.str (oidToString n))]
  | _ => d

def list_projects (db : Option Database) (limit : Option Int) :
    HResp (List Doc) :=
  match db with
  | none => HResp.fail 503 "Database not available"
  | some d =>
    HResp.ok ((d.project.findDocs [] (effectiveLimit limit)).map renameIdIfPresent)

/-- Handler of `POST /api/projects`: validate, insert, answer with the new
identifier. -/
def create_project (db : Option Database) (project : ProjectPayload) :
    HResp Doc × Option Database :=
  match db with
  | none => (HResp.fail 503 "Database not available", none)
  | some d =>
    let r := d.project.insertDoc (projectToDoc (validateProject project))
    (HResp.ok [("id", JsonVal.str r.1)], some (Database.mk r.2 d.tuningjob))

/-- Handler of `GET /api/projects/{project_id}`.  The second component
records whether the store was queried (`find_one` reached). -/
def get_project (db : Option Database) (project_id : String) :
    HResp Doc × Bool :=
  match db with
  | none => (HResp.fail 503 "Database not available", false)
  | some d =>
    match parseOidOr400 project_id with
    | Except.error e => (HResp.fail e.1 e.2, false)
    | Except.ok i =>
      match d.project.findOne i with
      | none => (HResp.fail 404 "Project not found", true)
      | some doc =>
        match lookupField doc "_id" with
        | some (JsonVal.oid n) =>
          (HResp.ok (eraseField doc "_id" ++ [("id", JsonVal.str (oidToString n))]),
           true)
        | _ => (HResp.crash, true)

/-- Handler of `GET /api/tuning-jobs`: an empty dict filter, to which
`project_id` equality is added when the query parameter is truthy (present
and non-empty). -/
def list_tuning_jobs (db : Option Database) (limit : Option Int)
    (project_id : Option String) : HResp (List Doc) :=
  match db with
  | none => HResp.fail 503 "Database not available"
  | some d =>
    let filt : Doc :=
      match project_id with
      | some p => if p = "" then [] else [("project_id", JsonVal.str p)]
      | none => []
    HResp.ok ((d.tuningjob.findDocs filt (effectiveLimit limit)).map renameIdIfPresent)

/-- Effective record persisted by `POST /api/tuning-jobs`:
`if not data.get("status"): data["status"] = "queued"` — a falsy (empty)
status becomes `"queued"`. -/
def tuningJobData (j : TuningJob) : TuningJob :=
  if j.status = "" then
    TuningJob.mk j.project_id j.model j.objective j.dataset "queued" j.params
  else j

/-- Handler of `POST /api/tuning-jobs`: validate, apply the blank-status
default, insert, answer with the new identifier and the effective status.
The scheduled background task is modelled separately by `_progress`. -/
def create_tuning_job (db : Option Database) (job : TuningJobPayload) :
    HResp Doc × Option Database :=
  match db with
  | none => (HResp.fail 503 "Database not available", none)
  | some d =>
    let data := tuningJobData (validateTuningJob job)
    let r := d.tuningjob.insertDoc (tuningJobToDoc data)
    (HResp.ok [("id", JsonVal.str r.1), ("status", JsonVal.str data.status)],
     some (Database.mk d.project r.2))

/-- Handler of `PUT /api/tuning-jobs/{job_id}/status`: single-field `$set`
update, 404 when zero records matched, then an unguarded `find_one` and
`_id` rename of its result (`crash` when that dereference would raise). -/
def update_tuning_job_status (db : Option Database) (job_id : String)
    (status : String) : HResp Doc × Option Database :=
  match db with
  | none => (HResp.fail 503 "Database not available", none)
  | some d =>
    match parseOidOr400 job_id with
    | Except.error e => (HResp.fail e.1 e.2, some d)
    | Except.ok i =>
      let r := d.tuningjob.updateOne i "status" (JsonVal.str status)
      let d2 := Database.mk d.project r.1
      if r.2 = 0 then (HResp.fail 404 "Tuning job not found", some d2)
      else
        match r.1.findOne i with
        | none => (HResp.crash, some d2)
        | some doc =>
          match lookupField doc "_id" with
          | some (JsonVal.oid n) =>
            (HResp.ok (eraseField doc "_id" ++ [("id", JsonVal.str (oidToString n))]),
             some d2)
          | _ => (HResp.crash, some d2)

/-- Handler of `GET /api/tuning-jobs/{job_id}`. -/
def get_tuning_job (db : Option Database) (job_id : String) :
    HResp Doc × Bool :=
  match db with
  | none => (HResp.fail 503 "Database not available", false)
  | some d =>
    match parseOidOr400 job_id with
    | Except.error e => (HResp.fail e.1 e.2, false)
    | Except.ok i =>
      match d.tuningjob.findOne i with
      | none => (HResp.fail 404 "Tuning job not found", true)
      | some doc =>
        match lookupField doc "_id" with
        | some (JsonVal.oid n) =>
          (HResp.ok (eraseField doc "_id" ++ [("id", JsonVal.str (oidToString n))]),
           true)
        | _ => (HResp.crash, true)

/-! The HTTP surface as a whole, for claims quantifying over endpoints. -/

/-- The eleven routes of the application. -/
inductive Endpoint where
  | root
  | apiHello
  | test
  | schema
  | listProjects
  | createProject
  | getProject
  | listTuningJobs
  | createTuningJob
  | getTuningJob
  | updateTuningJobStatus
deriving DecidableEq, Repr

/-- Whether a route's handler touches the store handle at all. -/
def Endpoint.storeBacked : Endpoint → Bool
  | Endpoint.root => false
  | Endpoint.apiHello => false
  | Endpoint.test => false
  | Endpoint.schema => false
  | _ => true

/-- A concrete valid `Project` body, used to probe the create route. -/
def sampleProjectPayload : ProjectPayload :=
  ProjectPayload.mk "p" none none none none none

/-- A concrete valid `TuningJob` body, used to probe the create route. -/
def sampleTuningJobPayload : TuningJobPayload :=
  TuningJobPayload.mk none none "obj" none none none

/-- Status code each route answers with when the store handle is absent
(`db is None`), obtained by running the route's handler embedding with
`none` for the handle. -/
def statusWhenDbUnavailable : Endpoint → Nat
  | Endpoint.root => respStatus (HResp.ok read_root)
  | Endpoint.apiHello => respStatus (HResp.ok hello)
  | Endpoint.test => respStatus (HResp.ok (test_database none false (Except.ok [])))
  | Endpoint.schema => respStatus (HResp.ok get_schema)
  | Endpoint.listProjects => respStatus (list_projects none none)
  | Endpoint.createProject => respStatus (create_project none sampleProjectPayload).1
  | Endpoint.getProject => respStatus (get_project none "x").1
  | Endpoint.listTuningJobs => respStatus (list_tuning_jobs none none none)
  | Endpoint.createTuningJob =>
    respStatus (create_tuning_job none sampleTuningJobPayload).1
  | Endpoint.getTuningJob => respStatus (get_tuning_job none "x").1
  | Endpoint.updateTuningJobStatus =>
    respStatus (update_tuning_job_status none "x" "queued").1

/-! The lifecycle simulator (`_progress`, scheduled by `create_tuning_job`).
Its store writes may raise; an exception is injected through `ProgressEnv`
and a raising write is modelled as applying nothing. -/

/-- Exception injection for one run of the background task: whether the
`$set status=running` write raises, whether the `$set status=completed`
write raises, and whether the best-effort `$set status=failed` write of the
exception handler raises in turn. -/
structure ProgressEnv where
  runningUpdateRaises : Bool
  completedUpdateRaises : Bool
  failedUpdateRaises : Bool
deriving DecidableEq, Repr

/-- Status values successfully written by one run of `_progress`, in order.
The `try` body writes `"running"`, sleeps, then writes `"completed"`; on the
first raise control moves to the `except` block, which attempts a single
`"failed"` write inside a nested `try` whose `except` is `pass` — so the
function always returns normally, whatever raises. -/
def _progress (e : ProgressEnv) : List String :=
  if e.runningUpdateRaises then
    if e.failedUpdateRaises then [] else ["failed"]
  else if e.completedUpdateRaises then
    if e.failedUpdateRaises then ["running"] else ["running", "failed"]
  else ["running", "completed"]

/-- Stored status values observed over one run, starting from the status the
job was created with. -/
def progressTrace (startStatus : String) (e : ProgressEnv) : List String :=
  startStatus :: _progress e

/-! Store-level lemmas used by the claim proofs. -/

theorem updateFirst_matched_zero (docs : List Doc) (i : Nat) (k : String)
    (v : JsonVal) (h : (updateFirst docs i k v).2 = 0) :
    (updateFirst docs i k v).1 = docs := by
  induction docs with
  | nil => simp [updateFirst]
  | cons d rest ih =>
    by_cases hd : hasOid d i
    · simp [updateFirst, hd] at h
    · simp [updateFirst, hd] at h ⊢
      exact ih h

theorem updateFirst_zero_iff (docs : List Doc) (i : Nat) (k : String)
    (v : JsonVal) :
    (updateFirst docs i k v).2 = 0 ↔ (docs.find? fun d => hasOid d i) = none := by
  induction docs with
  | nil => simp [updateFirst]
  | cons d rest ih =>
    by_cases hd : hasOid d i
    · simp [updateFirst, hd, List.find?]
    · simp [updateFirst, hd, List.find?, ih]

theorem updateFirst_matched_find (docs : List Doc) (i : Nat) (k : String)
    (v : JsonVal) (hk : k ≠ "_id") (hm : (updateFirst docs i k v).2 ≠ 0) :
    ∃ d0, (docs.find? fun d => hasOid d i) = some d0 ∧
      ((updateFirst docs i k v).1.find? fun d => hasOid d i) =
        some (setField d0 k v) := by
  induction docs with
  | nil => simp [updateFirst] at hm
  | cons d rest ih =>
    by_cases hd : hasOid d i
    · refine ⟨d, ?_, ?_⟩
      · simp [List.find?, hd]
      · have hset : hasOid (setField d k v) i = true := by
          have hl : lookupField (setField d k v) "_id" = lookupField d "_id" :=
            lookupField_setField_ne d k "_id" v hk
          simp only [hasOid] at hd ⊢
          rw [hl]
          exact hd
        simp [updateFirst, hd, List.find?, hset]
    · have hm2 : (updateFirst rest i k v).2 ≠ 0 := by
        simp [updateFirst, hd] at hm
        exact hm
      obtain ⟨d0, hfind, hfind2⟩ := ih hm2
      refine ⟨d0, ?_, ?_⟩
      · simp [List.find?, hd, hfind]
      · simp [updateFirst, hd, List.find?, hfind2]

theorem hasOid_lookup (d : Doc) (i : Nat) (h : hasOid d i = true) :
    lookupField d "_id" = some (JsonVal.oid i) := by
  simpa [hasOid] using h

theorem findOne_insertDoc (s : Store) (d : Doc) (hwf : s.WF) :
    (s.insertDoc d).2.findOne s.nextId =
      some (("_id", JsonVal.oid s.nextId) :: d) := by
  obtain ⟨hlt, hbound⟩ := hwf
  unfold Store.insertDoc Store.findOne
  have hnone : (s.docs.find? fun d2 => hasOid d2 s.nextId) = none := by
    rw [List.find?_eq_none]
    intro d2 hd2 hcontra
    have := hbound d2 hd2 s.nextId (hasOid_lookup d2 s.nextId hcontra)
    omega
  rw [List.find?_append, hnone]
  simp [List.find?, hasOid, lookupField]

theorem projectToDoc_no_id (q : Project) :
    lookupField (projectToDoc q) "_id" = none := by
  simp [projectToDoc, lookupField]

theorem tuningJobToDoc_no_id (q : TuningJob) :
    lookupField (tuningJobToDoc q) "_id" = none := by
  simp [tuningJobToDoc, lookupField]

theorem lookupField_renameIdIfPresent (d : Doc) (k : String)
    (h1 : k ≠ "_id") (h2 : k ≠ "id") :
    lookupField (renameIdIfPresent d) k = lookupField d k := by
  unfold renameIdIfPresent
  cases hl : lookupField d "_id" with
  | none => rfl
  | some v =>
    cases v with
    | oid n =>
      rw [lookupField_append, lookupField_eraseField_ne d "_id" k (Ne.symm h1)]
      cases h3 : lookupField d k with
      | some w => rfl
      | none => simp [lookupField, Ne.symm h2]
    | str s => rfl
    | null => rfl
    | arr xs => rfl
    | obj kvs => rfl

/-- Items of a successful list response. -/
def itemsOf {α : Type} (r : HResp (List α)) : List α :=
  match r with
  | HResp.ok l => l
  | _ => []

/-! Claims. -/

/-- C1 (counterexample): the claim says every endpoint of the HTTP surface
answers 503 when the store handle is absent; but `GET /` never consults the
handle and answers 200 even then. -/
theorem C1_counterexample : statusWhenDbUnavailable Endpoint.root ≠ 503 := by
  decide

/-- C1 (amended): when the store handle is absent, exactly the store-backed
routes (the project and tuning-job endpoints) answer 503 with detail
"Database not available", whatever their other arguments; `GET /`,
`GET /api/hello`, `GET /test` and `GET /schema` answer 200 regardless of
store health. -/
theorem C1_amended :
    (∀ e : Endpoint,
      statusWhenDbUnavailable e = if e.storeBacked then 503 else 200) ∧
    (∀ limit, list_projects none limit =
      HResp.fail 503 "Database not available") ∧
    (∀ p, (create_project none p).1 =
      HResp.fail 503 "Database not available") ∧
    (∀ s, (get_project none s).1 =
      HResp.fail 503 "Database not available") ∧
    (∀ limit pid, list_tuning_jobs none limit pid =
      HResp.fail 503 "Database not available") ∧
    (∀ j, (create_tuning_job none j).1 =
      HResp.fail 503 "Database not available") ∧
    (∀ s st, (update_tuning_job_status none s st).1 =
      HResp.fail 503 "Database not available") ∧
    (∀ s, (get_tuning_job none s).1 =
      HResp.fail 503 "Database not available") := by
  refine ⟨?_, ?_, ?_, ?_, ?_, ?_, ?_, ?_⟩
  · intro e; cases e <;> rfl
  all_goals intros; rfl

/-- C2 (counterexample): the claim says a negative `limit` yields an
effective limit of 50; but Python's `or` treats a negative integer as
truthy, so `min(-1 or 50, 200)` passes -1 to the store query unchanged. -/
theorem C2_counterexample :
    effectiveLimit (some (-1)) = -1 ∧ effectiveLimit (some (-1)) ≠ 50 := by
  decide

/-- C2 (amended): the number of records passed to the store query is at most
200; an unspecified or zero `limit` yields 50; a positive `limit` is clamped
to at most 200; a negative `limit` is passed through unchanged. -/
theorem C2_amended :
    (∀ limit : Option Int, effectiveLimit limit ≤ 200) ∧
    effectiveLimit none = 50 ∧
    effectiveLimit (some 0) = 50 ∧
    (∀ n : Int, 0 < n → effectiveLimit (some n) = min n 200) ∧
    (∀ n : Int, n < 0 → effectiveLimit (some n) = n) := by
  refine ⟨?_, by decide, by decide, ?_, ?_⟩
  · intro limit
    exact min_le_right _ _
  · intro n hn
    simp [effectiveLimit, hn.ne']
  · intro n hn
    have h0 : n ≠ 0 := hn.ne
    simp only [effectiveLimit, Option.getD, h0, if_false]
    omega

/-- C2 (witness). -/
theorem C2_witness : (0 : Int) < 7 ∧ effectiveLimit (some 7) = min 7 200 :=
  ⟨by decide, C2_amended.2.2.2.1 7 (by decide)⟩

/-- C3: the lifecycle simulator only ever writes statuses from
queued/running/completed/failed; when nothing raises, the stored status
advances queued, running, completed in that order; on any raise during the
transition the run makes exactly one trailing best-effort "failed" write,
and when that write raises in turn nothing more is written — the run still
returns normally (`_progress` is total), so the failure is silently
discarded and at most one "failed" write ever happens. -/
theorem C3_lifecycle :
    ∀ e : ProgressEnv,
      (e.runningUpdateRaises = false → e.completedUpdateRaises = false →
        progressTrace "queued" e = ["queued", "running", "completed"]) ∧
      (∀ st ∈ _progress e,
        st = "running" ∨ st = "completed" ∨ st = "failed") ∧
      ((e.runningUpdateRaises = true ∨ e.completedUpdateRaises = true) →
        (e.failedUpdateRaises = false →
          (_progress e).getLast? = some "failed" ∧
          (_progress e).count "failed" = 1) ∧
        (e.failedUpdateRaises = true → "failed" ∉ _progress e)) ∧
      (_progress e).count "failed" ≤ 1 ∧
      "queued" ∉ _progress e := by
  intro e
  obtain ⟨a, b, c⟩ := e
  revert a b c
  decide

/-- C3 (witness). -/
theorem C3_witness :
    progressTrace "queued" (ProgressEnv.mk false false false) =
      ["queued", "running", "completed"] :=
  (C3_lifecycle (ProgressEnv.mk false false false)).1 rfl rfl

/-- C5: a get-by-id request whose path identifier does not parse as a store
identifier fails with 400 "Invalid ID format" and the store is never
queried (second component `false`), for either resource kind, with the
store handle available. -/
theorem C5_malformed_id (d : Database) (idStr : String)
    (h : oidOfString idStr = none) :
    get_project (some d) idStr = (HResp.fail 400 "Invalid ID format", false) ∧
    get_tuning_job (some d) idStr =
      (HResp.fail 400 "Invalid ID format", false) := by
  constructor <;> simp [get_project, get_tuning_job, parseOidOr400, h]

/-- C5 (witness). -/
theorem C5_witness :
    oidOfString "not-an-id" = none ∧
    get_project (some (Database.mk (Store.mk [] 0) (Store.mk [] 0)))
        "not-an-id" =
      (HResp.fail 400 "Invalid ID format", false) :=
  ⟨by decide,
   (C5_malformed_id (Database.mk (Store.mk [] 0) (Store.mk [] 0)) "not-an-id"
     (by decide)).1⟩

/-- C10: a tuning-job list request whose `project_id` query parameter is the
empty string applies no filter at all: Python's truthiness test skips the
empty string, so the response is identical to one for a request omitting
the parameter. -/
theorem C10_empty_filter (db : Option Database) (limit : Option Int) :
    list_tuning_jobs db limit (some "") = list_tuning_jobs db limit none := by
  cases db <;> rfl

/-- C4: creating a Project or TuningJob record and getting it back by the
returned identifier yields exactly the validated input — the declared
defaults applied (absent language becomes "javascript", absent model
becomes "arcyn-prime", absent tags/settings/params become empty, a blank
status becomes "queued") — plus a trailing non-empty string `id` field and
no `_id` field, for any well-formed store state. -/
theorem C4_create_then_get (db : Database) (p : ProjectPayload)
    (j : TuningJobPayload) (hp : db.project.WF) (ht : db.tuningjob.WF) :
    (create_project (some db) p).1 =
      HResp.ok [("id", JsonVal.str (oidToString db.project.nextId))] ∧
    (get_project (create_project (some db) p).2
        (oidToString db.project.nextId)).1 =
      HResp.ok (projectToDoc (validateProject p) ++
        [("id", JsonVal.str (oidToString db.project.nextId))]) ∧
    oidToString db.project.nextId ≠ "" ∧
    lookupField (projectToDoc (validateProject p) ++
        [("id", JsonVal.str (oidToString db.project.nextId))]) "_id" = none ∧
    (p.language = none → (validateProject p).language = "javascript") ∧
    (p.tags = none → (validateProject p).tags = []) ∧
    (p.settings = none → (validateProject p).settings = []) ∧
    (create_tuning_job (some db) j).1 =
      HResp.ok [("id", JsonVal.str (oidToString db.tuningjob.nextId)),
        ("status", JsonVal.str (tuningJobData (validateTuningJob j)).status)] ∧
    (get_tuning_job (create_tuning_job (some db) j).2
        (oidToString db.tuningjob.nextId)).1 =
      HResp.ok (tuningJobToDoc (tuningJobData (validateTuningJob j)) ++
        [("id", JsonVal.str (oidToString db.tuningjob.nextId))]) ∧
    oidToString db.tuningjob.nextId ≠ "" ∧
    lookupField (tuningJobToDoc (tuningJobData (validateTuningJob j)) ++
        [("id", JsonVal.str (oidToString db.tuningjob.nextId))]) "_id" = none ∧
    (j.status = none → (tuningJobData (validateTuningJob j)).status = "queued") ∧
    (j.model = none → (validateTuningJob j).model = "arcyn-prime") ∧
    (j.params = none → (validateTuningJob j).params = []) := by
  have hfindp := findOne_insertDoc db.project (projectToDoc (validateProject p)) hp
  have hparsep := oidOfString_oidToString db.project.nextId hp.1
  have hfindt := findOne_insertDoc db.tuningjob
    (tuningJobToDoc (tuningJobData (validateTuningJob j))) ht
  have hparset := oidOfString_oidToString db.tuningjob.nextId ht.1
  refine ⟨rfl, ?_, oidToString_ne_empty _, ?_, ?_, ?_, ?_, rfl, ?_, 
    oidToString_ne_empty _, ?_, ?_, ?_, ?_⟩
  · simp [create_project, get_project, parseOidOr400, hparsep, hfindp,
      lookupField, eraseField]
  · rw [lookupField_append, projectToDoc_no_id]
    simp [lookupField]
  · intro h; simp [validateProject, h]
  · intro h; simp [validateProject, h]
  · intro h; simp [validateProject, h]
  · simp [create_tuning_job, get_tuning_job, parseOidOr400, hparset, hfindt,
      lookupField, eraseField]
  · rw [lookupField_append, tuningJobToDoc_no_id]
    simp [lookupField]
  · intro h; simp [tuningJobData, validateTuningJob, h]
  · intro h; simp [validateTuningJob, h]
  · intro h; simp [validateTuningJob, h]

/-- C4 (witness). -/
theorem C4_witness :
    (Database.mk (Store.mk [] 0) (Store.mk [] 0)).project.WF ∧
    (create_project (some (Database.mk (Store.mk [] 0) (Store.mk [] 0)))
        sampleProjectPayload).1 =
      HResp.ok [("id", JsonVal.str (oidToString 0))] :=
  ⟨⟨by norm_num, by simp⟩,
   (C4_create_then_get (Database.mk (Store.mk [] 0) (Store.mk [] 0))
     sampleProjectPayload sampleTuningJobPayload
     ⟨by norm_num, by simp⟩ ⟨by norm_num, by simp⟩).1⟩

/-- C6: with a well-formed identifier that matches no stored record,
get-by-id answers 404 for either resource kind (after querying the store),
update-status answers 404 when zero records matched, and on that 404 the
returned store state is exactly the one passed in. -/
theorem C6_not_found (d : Database) (idStr newStatus : String) (i : Nat)
    (hparse : oidOfString idStr = some i)
    (hproj : d.project.findOne i = none)
    (htj : d.tuningjob.findOne i = none) :
    get_project (some d) idStr = (HResp.fail 404 "Project not found", true) ∧
    get_tuning_job (some d) idStr =
      (HResp.fail 404 "Tuning job not found", true) ∧
    update_tuning_job_status (some d) idStr newStatus =
      (HResp.fail 404 "Tuning job not found", some d) := by
  have hfind : (d.tuningjob.docs.find? fun x => hasOid x i) = none := htj
  have hzero :
      (updateFirst d.tuningjob.docs i "status" (JsonVal.str newStatus)).2 = 0 :=
    (updateFirst_zero_iff _ _ _ _).mpr hfind
  have hsame := updateFirst_matched_zero _ _ _ _ hzero
  refine ⟨?_, ?_, ?_⟩
  · simp [get_project, parseOidOr400, hparse, hproj]
  · simp [get_tuning_job, parseOidOr400, hparse, htj]
  · obtain ⟨sp, stj⟩ := d
    obtain ⟨docs, nid⟩ := stj
    simp only at hzero hsame
    simp [update_tuning_job_status, parseOidOr400, hparse, Store.updateOne,
      hzero, hsame]

/-- C6 (witness). -/
theorem C6_witness :
    oidOfString (oidToString 0) = some 0 ∧
    update_tuning_job_status
        (some (Database.mk (Store.mk [] 0) (Store.mk [] 0)))
        (oidToString 0) "running" =
      (HResp.fail 404 "Tuning job not found",
       some (Database.mk (Store.mk [] 0) (Store.mk [] 0))) :=
  ⟨oidOfString_oidToString 0 (by norm_num),
   (C6_not_found (Database.mk (Store.mk [] 0) (Store.mk [] 0))
     (oidToString 0) "running" 0
     (oidOfString_oidToString 0 (by norm_num)) rfl rfl).2.2⟩

/-- C7: a tuning-job creation whose validated status is blank (absent, so
pydantic's default "queued" applies, or the explicit empty string, caught by
the handler's falsiness test) persists the record with status "queued", and
the response body is exactly the new identifier and that persisted
status. -/
theorem C7_blank_status (d : Database) (j : TuningJobPayload)
    (h : j.status = none ∨ j.status = some "") :
    (tuningJobData (validateTuningJob j)).status = "queued" ∧
    (create_tuning_job (some d) j).1 =
      HResp.ok [("id", JsonVal.str (oidToString d.tuningjob.nextId)),
        ("status", JsonVal.str "queued")] ∧
    lookupField (tuningJobToDoc (tuningJobData (validateTuningJob j)))
      "status" = some (JsonVal.str "queued") ∧
    (create_tuning_job (some d) j).2 =
      some (Database.mk d.project (Store.mk
        (d.tuningjob.docs ++
          [("_id", JsonVal.oid d.tuningjob.nextId) ::
            tuningJobToDoc (tuningJobData (validateTuningJob j))])
        (d.tuningjob.nextId + 1))) := by
  have hq : (tuningJobData (validateTuningJob j)).status = "queued" := by
    rcases h with h | h <;> simp [tuningJobData, validateTuningJob, h]
  refine ⟨hq, ?_, ?_, rfl⟩
  · simp [create_tuning_job, Store.insertDoc, hq]
  · simp [tuningJobToDoc, lookupField, hq]

/-- C7 (witness). -/
theorem C7_witness :
    ((TuningJobPayload.mk none none "obj" none (some "") none).status = none ∨
     (TuningJobPayload.mk none none "obj" none (some "") none).status =
       some "") ∧
    (tuningJobData (validateTuningJob
      (TuningJobPayload.mk none none "obj" none (some "") none))).status =
      "queued" :=
  ⟨Or.inr rfl,
   (C7_blank_status (Database.mk (Store.mk [] 0) (Store.mk [] 0))
     (TuningJobPayload.mk none none "obj" none (some "") none)
     (Or.inr rfl)).1⟩

/-- C8: every record of a tuning-job list response with a non-empty
`project_id` query parameter has a stored `project_id` exactly equal to the
filter value (records with any other value fail the exact-match filter and
are excluded). -/
theorem C8_project_filter (d : Database) (limit : Option Int) (p : String)
    (hp : p ≠ "") (doc : Doc)
    (hdoc : doc ∈ itemsOf (list_tuning_jobs (some d) limit (some p))) :
    lookupField doc "project_id" = some (JsonVal.str p) := by
  simp only [list_tuning_jobs, itemsOf, Store.findDocs, hp, if_false] at hdoc
  rw [List.mem_map] at hdoc
  obtain ⟨pre, hpre, hrename⟩ := hdoc
  have hpre2 : pre ∈ d.tuningjob.docs.filter
      (matchesFilter [("project_id", JsonVal.str p)]) :=
    List.mem_of_mem_take hpre
  have hmatch : matchesFilter [("project_id", JsonVal.str p)] pre = true :=
    List.of_mem_filter hpre2
  have hlook : lookupField pre "project_id" = some (JsonVal.str p) := by
    simpa [matchesFilter] using hmatch
  rw [← hrename,
    lookupField_renameIdIfPresent pre "project_id" (by decide) (by decide)]
  exact hlook

/-- C8 (witness). -/
theorem C8_witness :
    ("p1" : String) ≠ "" ∧
    lookupField [("project_id", JsonVal.str "p1"),
      ("id", JsonVal.str (oidToString 0))] "project_id" =
      some (JsonVal.str "p1") :=
  ⟨by decide,
   C8_project_filter
     (Database.mk (Store.mk [] 0)
       (Store.mk [[("_id", JsonVal.oid 0), ("project_id", JsonVal.str "p1")]] 1))
     none "p1" (by decide)
     [("project_id", JsonVal.str "p1"), ("id", JsonVal.str (oidToString 0))]
     (by decide)⟩

/-- C9: whenever the single-field update of update-status matches at least
one record, the immediately following lookup by the same identifier finds
the updated record — `$set` does not touch `_id` and the sequential store
model embodies the no-concurrent-delete precondition — so the handler's
unguarded dereference never raises: no input makes it `crash` (a zero-match
update takes the 404 path first, and no delete operation exists). -/
theorem C9_update_no_crash (db : Option Database) (job_id newStatus : String) :
    (update_tuning_job_status db job_id newStatus).1 ≠ HResp.crash := by
  cases db with
  | none => simp [update_tuning_job_status]
  | some d =>
    cases hparse : parseOidOr400 job_id with
    | error e => simp [update_tuning_job_status, hparse]
    | ok i =>
      by_cases hm :
        (updateFirst d.tuningjob.docs i "status" (JsonVal.str newStatus)).2 = 0
      · simp [update_tuning_job_status, hparse, Store.updateOne, hm]
      · obtain ⟨d0, hfind0, hfind2⟩ := updateFirst_matched_find
          d.tuningjob.docs i "status" (JsonVal.str newStatus) (by decide) hm
        have hoid : hasOid d0 i = true := by
          have h2 := List.find?_some hfind0
          simpa using h2
        have hlook : lookupField (setField d0 "status" (JsonVal.str newStatus))
            "_id" = some (JsonVal.oid i) := by
          rw [lookupField_setField_ne d0 "status" "_id" (JsonVal.str newStatus)
            (by decide)]
          exact hasOid_lookup d0 i hoid
        simp [update_tuning_job_status, hparse, Store.updateOne, hm,
          Store.findOne, hfind2, hlook]
